import Mathlib

/-!
Verification of the airfoil boundary point generator of the
Deepflow-Surrogate repository (`src/mesh_generation.py` together with the
reference implementation in `src/benchmark_mesh_generation.py`).

Modelling conventions.

* Python / NumPy floating point numbers are modelled by exact rationals
  (`ℚ`).  Every claim under study is an exact structural statement
  (lengths, index placement, sign flips, exact reuse of a value computed
  once), so the model is faithful for those statements: the code performs
  the very same operation trees on both sides of each asserted equality,
  hence the float results coincide exactly whenever the rational ones do.
* `np.sqrt` is modelled by an explicit square-root oracle
  `sq : ℚ → ℚ` passed as a parameter: the real square root is not
  rational, and no claim depends on its value other than `sq 0 = 0` and
  `sq 1 = 1`, which are taken as hypotheses exactly where needed.
* NumPy's in-place array operations are modelled by explicit state
  passing: an array is a `List ℚ`, and each statement of the source that
  mutates a buffer becomes a rebinding of the corresponding list.  The
  three columns of the `(2N-1, 3)` result matrix of
  `generate_airfoil_points` are modelled as three lists `col0`, `col1`,
  `col2`, and every slice assignment of the source becomes the
  corresponding `take`/`drop`/`append` combination on them.
-/

namespace Deepflow

/-- Source line 97: `scale = 5 * t` in `naca0012_y`. -/
def scaleC (t : ℚ) : ℚ := 5 * t

/-- Source line 98: `c0 = 0.2969 * scale`. -/
def c0 (t : ℚ) : ℚ := 0.2969 * scaleC t

/-- Source line 99: `c1 = -0.1260 * scale`. -/
def c1 (t : ℚ) : ℚ := -0.1260 * scaleC t

/-- Source line 100: `c2 = -0.3516 * scale`. -/
def c2 (t : ℚ) : ℚ := -0.3516 * scaleC t

/-- Source line 101: `c3 = 0.2843 * scale`. -/
def c3 (t : ℚ) : ℚ := 0.2843 * scaleC t

/-- Source line 102: `c4 = -0.1015 * scale`. -/
def c4 (t : ℚ) : ℚ := -0.1015 * scaleC t

/-- Scalar form of `naca0012_y` (source lines 90-128): the same
operations in the same order, applied to a single abscissa.  `sq` is the
square-root oracle standing for `np.sqrt`. -/
def naca0012_y (t : ℚ) (sq : ℚ → ℚ) (x : ℚ) : ℚ :=
  let out := c4 t            -- out.fill(c4)
  let out := out * x         -- out *= x
  let out := out + c3 t      -- out += c3
  let out := out * x         -- out *= x
  let out := out + c2 t      -- out += c2
  let out := out * x         -- out *= x
  let out := out + c1 t      -- out += c1
  let out := out * x         -- out *= x
  let sqrt_x := sq x         -- np.sqrt(x)
  let sqrt_x := sqrt_x * c0 t  -- sqrt_x *= c0
  out + sqrt_x               -- out += sqrt_x

/-- The buffer state threaded through the vectorised `naca0012_y`:
the input array `x`, the destination buffer `out` and the scratch buffer
used for the square-root pass. -/
structure VecState where
  x : List ℚ
  out : List ℚ
  scratch : List ℚ
  deriving DecidableEq

/-- The vectorised body of `naca0012_y` (source lines 104-128) when both
`out` and `scratch` buffers are supplied: each in-place NumPy operation
becomes the corresponding whole-list operation, and the function returns
the final buffer state.  (`out.fill(c4)` overwrites the previous content
of `out`, so the initial content of `out` and `scratch` is irrelevant;
NumPy requires all three buffers to have the same length, which becomes a
hypothesis of the theorems below.) -/
def naca0012_y_vec (t : ℚ) (sq : ℚ → ℚ) (s : VecState) : VecState :=
  let out := s.out.map (fun _ => c4 t)             -- out.fill(c4)
  let out := List.zipWith (· * ·) out s.x          -- out *= x
  let out := out.map (· + c3 t)                    -- out += c3
  let out := List.zipWith (· * ·) out s.x          -- out *= x
  let out := out.map (· + c2 t)                    -- out += c2
  let out := List.zipWith (· * ·) out s.x          -- out *= x
  let out := out.map (· + c1 t)                    -- out += c1
  let out := List.zipWith (· * ·) out s.x          -- out *= x
  let scratch := s.x.map sq                        -- np.sqrt(x, out=scratch)
  let scratch := scratch.map (· * c0 t)            -- sqrt_x *= c0
  let out := List.zipWith (· + ·) out scratch      -- out += sqrt_x
  ⟨s.x, out, scratch⟩

/-- The call of `naca0012_y` without `out` and `scratch` (source lines
104-105, 122-123): `out = np.empty_like(x)` allocates a fresh buffer
(whose uninitialised content is immediately overwritten by
`out.fill(c4)`, so modelling it by zeros is content-irrelevant), and the
square-root pass allocates its own temporary.  Returns the `out` buffer. -/
def naca0012_y_alloc (t : ℚ) (sq : ℚ → ℚ) (x : List ℚ) : List ℚ :=
  (naca0012_y_vec t sq ⟨x, List.replicate x.length 0, List.replicate x.length 0⟩).out

/-- The abscissa of index `i` of `np.linspace(0, 1, N)`:
`x_i = i / (N - 1)`.  (For `N = 1` NumPy returns `[0.0]`, matching
`0 / 0 = 0` here.) -/
def xcoord (N i : ℕ) : ℚ := (i : ℚ) / ((N : ℚ) - 1)

/-- The abscissa set `np.linspace(0, 1, N)` (source line 142): `N`
evenly spaced values from `0` to `1` inclusive. -/
def linspace01 (N : ℕ) : List ℚ := (List.range N).map (fun i => xcoord N i)

/-- The assembler `generate_airfoil_points` (source lines 140-171).  The
`(2N-1, 3)` matrix `points` is modelled column-wise; every slice
assignment of the source is the corresponding list surgery, in source
order. -/
def generate_airfoil_points (t : ℚ) (sq : ℚ → ℚ) (N : ℕ) : List (ℚ × ℚ × ℚ) :=
  let x := linspace01 N                                -- x = np.linspace(0, 1, N)
  let total := 2 * N - 1                               -- total_points = 2*N - 1
  let col0 := List.replicate total (0 : ℚ)             -- points = np.zeros((total, 3))
  let col1 := List.replicate total (0 : ℚ)
  let col2 := List.replicate total (0 : ℚ)
  -- naca0012_y(x, out=points[:N, 2], scratch=points[:N, 1])
  let st := naca0012_y_vec t sq ⟨x, col2.take N, col1.take N⟩
  let col2 := st.out ++ col2.drop N
  let col1 := st.scratch ++ col1.drop N
  -- points[:N, 0] = x[::-1]
  let col0 := x.reverse ++ col0.drop N
  -- points[:N, 1] = y_buffer[::-1]       (y_buffer aliases points[:N, 2])
  let col1 := (col2.take N).reverse ++ col1.drop N
  -- points[N:, 0] = x[1:]
  let col0 := col0.take N ++ x.drop 1
  -- np.negative(y_buffer[1:], out=points[N:, 1])
  let col1 := col1.take N ++ ((col2.take N).drop 1).map (fun v => -v)
  -- y_buffer.fill(0.0)
  let col2 := List.replicate N (0 : ℚ) ++ col2.drop N
  col0.zip (col1.zip col2)

/-- The reference implementation `generate_airfoil_points_slow`
(benchmark source lines 8-29): the per-point scalar form.
`xs[i] = i / (N - 1)`,
`ys_upper[i] = naca0012_y(xs[i])`, `ys_lower[i] = -ys_upper[i]`; the
result appends the upper surface in reverse order and then the lower
surface skipping index `0`. -/
def generate_airfoil_points_slow (t : ℚ) (sq : ℚ → ℚ) (N : ℕ) :
    List (ℚ × ℚ × ℚ) :=
  let xs := (List.range N).map (fun (i : ℕ) => (i : ℚ) / ((N : ℚ) - 1))
  let ys_upper := xs.map (fun x => naca0012_y t sq x)
  let ys_lower := xs.map (fun x => -(naca0012_y t sq x))
  ((List.range N).map (fun i =>
      (xs.getD (N - 1 - i) 0, ys_upper.getD (N - 1 - i) 0, (0 : ℚ)))) ++
  ((List.range (N - 1)).map (fun i =>
      (xs.getD (i + 1) 0, ys_lower.getD (i + 1) 0, (0 : ℚ))))

/-- The `--num-points` validation of `main` (source lines 479-481): the
CLI exits with an error exactly when `num_points <= 0`. -/
def main_accepts_num_points (n : ℤ) : Bool := !(n ≤ 0)

/-! ### Helper lemmas -/

/-- Zipping a mapped copy of a list against the list itself is a
pointwise map. -/
lemma zipWith_map_self (f : ℚ → ℚ → ℚ) (g : ℚ → ℚ) (xs : List ℚ) :
    List.zipWith f (xs.map g) xs = xs.map (fun v => f (g v) v) := by
  induction xs with
  | nil => rfl
  | cons a l ih => simp only [List.map_cons, List.zipWith_cons_cons, ih]

/-- Zipping two mapped copies of the same list is a pointwise map. -/
lemma zipWith_map_both (f : ℚ → ℚ → ℚ) (g h : ℚ → ℚ) (xs : List ℚ) :
    List.zipWith f (xs.map g) (xs.map h) = xs.map (fun v => f (g v) (h v)) := by
  induction xs with
  | nil => rfl
  | cons a l ih => simp only [List.map_cons, List.zipWith_cons_cons, ih]

/-- Specification of the vectorised evaluator: whatever the initial
contents of `out` and `scratch`, the run leaves `x` unchanged, fills
`out` with the scalar evaluation at every abscissa, and leaves the
scaled square-root term in `scratch`. -/
lemma naca0012_y_vec_spec (t : ℚ) (sq : ℚ → ℚ) (xs out scratch : List ℚ)
    (h : out.length = xs.length) :
    naca0012_y_vec t sq ⟨xs, out, scratch⟩ =
      ⟨xs, xs.map (naca0012_y t sq), xs.map (fun v => sq v * c0 t)⟩ := by
  have h1 : out.map (fun _ => c4 t) = xs.map (fun _ => c4 t) := by
    rw [List.map_const', List.map_const', h]
  simp only [naca0012_y_vec, h1, zipWith_map_self, zipWith_map_both,
    List.map_map]
  rfl

/-- The closed form of the boundary sequence: the upper surface with
abscissas in decreasing order followed by the sign-flipped lower surface
skipping the leading edge.  Both the vectorised generator and the scalar
reference implementation are proved below to equal this list. -/
def airfoilCanonical (t : ℚ) (sq : ℚ → ℚ) (N : ℕ) : List (ℚ × ℚ × ℚ) :=
  ((List.range N).map (fun j =>
      (xcoord N (N - 1 - j), naca0012_y t sq (xcoord N (N - 1 - j)), (0 : ℚ)))) ++
  ((List.range (N - 1)).map (fun k =>
      (xcoord N (k + 1), -(naca0012_y t sq (xcoord N (k + 1))), (0 : ℚ))))

lemma length_linspace01 (N : ℕ) : (linspace01 N).length = N := by
  simp [linspace01]

lemma reverse_map_range {α : Type} (g : ℕ → α) (N : ℕ) :
    ((List.range N).map g).reverse = (List.range N).map (fun j => g (N - 1 - j)) := by
  apply List.ext_getElem
  · simp
  · intro i h1 h2
    rw [List.getElem_reverse]
    simp [List.getElem_map, List.getElem_range]

lemma drop_one_map_range {α : Type} (g : ℕ → α) (N : ℕ) :
    ((List.range N).map g).drop 1 = (List.range (N - 1)).map (fun k => g (k + 1)) := by
  apply List.ext_getElem
  · simp
  · intro i h1 h2
    simp only [List.getElem_drop, List.getElem_map, List.getElem_range]
    congr 1
    omega

lemma zip_map_replicate_triple (c : ℚ) (f : ℚ → ℚ) :
    ∀ (L : List ℚ) (n : ℕ), L.length = n →
      L.zip ((L.map f).zip (List.replicate n c)) = L.map (fun v => (v, f v, c)) := by
  intro L
  induction L with
  | nil => intro n h; rfl
  | cons a l ih =>
    intro n h
    cases n with
    | zero => simp at h
    | succ m =>
      simp only [List.map_cons, List.replicate_succ, List.zip_cons_cons]
      rw [ih m (by simpa using h)]

/-- The buffer surgery of `generate_airfoil_points` collapses to the
closed form. -/
lemma generate_eq_canonical (t : ℚ) (sq : ℚ → ℚ) (N : ℕ) :
    generate_airfoil_points t sq N = airfoilCanonical t sq N := by
  have hx : (linspace01 N).length = N := length_linspace01 N
  have htake : ((List.replicate (2 * N - 1) (0 : ℚ)).take N).length
      = (linspace01 N).length := by
    simp [hx]; omega
  unfold generate_airfoil_points
  dsimp only
  rw [naca0012_y_vec_spec _ _ _ _ _ htake]
  have e1 : (List.replicate (2 * N - 1) (0 : ℚ)).drop N
      = List.replicate (N - 1) (0 : ℚ) := by
    rw [List.drop_replicate]; congr 1; omega
  simp only [e1]
  have t1 : ((linspace01 N).map (naca0012_y t sq) ++ List.replicate (N - 1) (0 : ℚ)).take N
      = (linspace01 N).map (naca0012_y t sq) := List.take_left' (by simp [hx])
  have t2 : ((linspace01 N).map (fun v => sq v * c0 t) ++ List.replicate (N - 1) (0 : ℚ)).drop N
      = List.replicate (N - 1) (0 : ℚ) := List.drop_left' (by simp [hx])
  have t3 : ((linspace01 N).reverse ++ List.replicate (N - 1) (0 : ℚ)).take N
      = (linspace01 N).reverse := List.take_left' (by simp [hx])
  have t4 : (((linspace01 N).map (naca0012_y t sq)).reverse ++ List.replicate (N - 1) (0 : ℚ)).take N
      = ((linspace01 N).map (naca0012_y t sq)).reverse := List.take_left' (by simp [hx])
  have t5 : ((linspace01 N).map (naca0012_y t sq) ++ List.replicate (N - 1) (0 : ℚ)).drop N
      = List.replicate (N - 1) (0 : ℚ) := List.drop_left' (by simp [hx])
  simp only [t1, t2, t3, t4, t5]
  have z1 : (((linspace01 N).map (naca0012_y t sq)).reverse
        ++ ((((linspace01 N).map (naca0012_y t sq)).drop 1).map (fun v => -v))).zip
        (List.replicate N (0 : ℚ) ++ List.replicate (N - 1) (0 : ℚ))
      = (((linspace01 N).map (naca0012_y t sq)).reverse).zip (List.replicate N (0 : ℚ))
        ++ ((((linspace01 N).map (naca0012_y t sq)).drop 1).map (fun v => -v)).zip
            (List.replicate (N - 1) (0 : ℚ)) :=
    List.zip_append (by simp [hx])
  rw [z1]
  rw [List.zip_append (by simp [hx, Nat.min_self])]
  have u1 : ((linspace01 N).map (naca0012_y t sq)).reverse
      = (linspace01 N).reverse.map (naca0012_y t sq) := (List.map_reverse _ _).symm
  have u2 : ((linspace01 N).map (naca0012_y t sq)).drop 1
      = ((linspace01 N).drop 1).map (naca0012_y t sq) := (List.map_drop _ _ _).symm
  rw [u1, u2, List.map_map]
  rw [zip_map_replicate_triple _ _ _ N (by simp [hx]),
    zip_map_replicate_triple _ _ _ (N - 1) (by simp [hx])]
  unfold airfoilCanonical
  congr 1
  · show ((linspace01 N).reverse).map _ = _
    unfold linspace01
    rw [reverse_map_range, List.map_map]
    rfl
  · show ((linspace01 N).drop 1).map _ = _
    unfold linspace01
    rw [drop_one_map_range, List.map_map]
    rfl

/-- The scalar reference implementation also equals the closed form. -/
lemma slow_eq_canonical (t : ℚ) (sq : ℚ → ℚ) (N : ℕ) :
    generate_airfoil_points_slow t sq N = airfoilCanonical t sq N := by
  unfold generate_airfoil_points_slow airfoilCanonical
  dsimp only
  congr 1
  · apply List.map_congr_left
    intro i hi
    rw [List.mem_range] at hi
    have h1 : N - 1 - i < N := by omega
    rw [List.getD_eq_getElem _ _ (by simpa using h1),
      List.getD_eq_getElem _ _ (by simpa using h1)]
    simp [List.getElem_map, List.getElem_range, xcoord]
  · apply List.map_congr_left
    intro k hk
    rw [List.mem_range] at hk
    have h1 : k + 1 < N := by omega
    rw [List.getD_eq_getElem _ _ (by simpa using h1),
      List.getD_eq_getElem _ _ (by simpa using h1)]
    simp [List.getElem_map, List.getElem_range, xcoord]

lemma airfoilCanonical_length (t : ℚ) (sq : ℚ → ℚ) (N : ℕ) :
    (airfoilCanonical t sq N).length = 2 * N - 1 := by
  simp [airfoilCanonical]
  omega

lemma airfoilCanonical_getD_upper (t : ℚ) (sq : ℚ → ℚ) (N r : ℕ) (hr : r < N)
    (d : ℚ × ℚ × ℚ) :
    (airfoilCanonical t sq N).getD r d =
      (xcoord N (N - 1 - r), naca0012_y t sq (xcoord N (N - 1 - r)), (0 : ℚ)) := by
  rw [List.getD_eq_getElem _ _ (by rw [airfoilCanonical_length]; omega)]
  unfold airfoilCanonical
  rw [List.getElem_append_left (by simpa using hr)]
  simp [List.getElem_map, List.getElem_range]

lemma airfoilCanonical_getD_lower (t : ℚ) (sq : ℚ → ℚ) (N r : ℕ)
    (hr1 : N ≤ r) (hr2 : r < 2 * N - 1) (d : ℚ × ℚ × ℚ) :
    (airfoilCanonical t sq N).getD r d =
      (xcoord N (r - N + 1), -(naca0012_y t sq (xcoord N (r - N + 1))), (0 : ℚ)) := by
  rw [List.getD_eq_getElem _ _ (by rw [airfoilCanonical_length]; omega)]
  unfold airfoilCanonical
  rw [List.getElem_append_right (by simpa using hr1)]
  simp only [List.length_map, List.length_range, List.getElem_map,
    List.getElem_range]

lemma cast_sub_one_ne_zero (N : ℕ) (hN : 2 ≤ N) : ((N : ℚ) - 1) ≠ 0 := by
  have h2 : (2 : ℚ) ≤ (N : ℚ) := by exact_mod_cast hN
  intro h
  linarith

/-- The scalar evaluator written as one arithmetic expression (the
let-chain of the source zeta-reduces to exactly this term). -/
lemma naca0012_y_eq (t : ℚ) (sq : ℚ → ℚ) (x : ℚ) :
    naca0012_y t sq x
      = (((c4 t * x + c3 t) * x + c2 t) * x + c1 t) * x + sq x * c0 t := rfl

lemma naca0012_y_at_zero (t : ℚ) (sq : ℚ → ℚ) (h0 : sq 0 = 0) :
    naca0012_y t sq 0 = 0 := by
  rw [naca0012_y_eq, h0]
  ring

lemma xcoord_zero (N : ℕ) : xcoord N 0 = 0 := by
  simp [xcoord]

lemma xcoord_last (N : ℕ) (hN : 2 ≤ N) : xcoord N (N - 1) = 1 := by
  unfold xcoord
  have h1 : 1 ≤ N := by omega
  have hc : ((N - 1 : ℕ) : ℚ) = (N : ℚ) - 1 := by
    push_cast [Nat.cast_sub h1]
    ring
  rw [hc, div_self (cast_sub_one_ne_zero N hN)]

lemma xcoord_eq_zero_iff (N i : ℕ) (hN : 2 ≤ N) : xcoord N i = 0 ↔ i = 0 := by
  unfold xcoord
  rw [div_eq_zero_iff]
  have hd := cast_sub_one_ne_zero N hN
  simp [hd]

lemma countP_range_eq_one (N m : ℕ) (hm : m < N) :
    (List.range N).countP (fun j => decide (j = m)) = 1 := by
  have h1 : (List.range N).countP (fun j => decide (j = m))
      = (List.range N).count m := by
    unfold List.count
    apply List.countP_congr
    intro j hj
    simp only [decide_eq_true_eq, beq_iff_eq]
  rw [h1]
  exact List.count_eq_one_of_mem (List.nodup_range N) (List.mem_range.2 hm)

/-! ### Claims -/

/-- Claim C5: for every abscissa `x` and thickness ratio `t`, the profile
evaluator `naca0012_y` returns
`y = 5t * (0.2969 * sqrt x - 0.1260 * x - 0.3516 * x^2 + 0.2843 * x^3 - 0.1015 * x^4)`;
in particular `y 0 = 0` (given `sqrt 0 = 0`) and `y 1` is a non-zero
residual (given `sqrt 1 = 1` and `t > 0`). -/
theorem claim_C5_theorem (t : ℚ) (sq : ℚ → ℚ) (x : ℚ) :
    naca0012_y t sq x
        = 5 * t * (0.2969 * sq x - 0.1260 * x - 0.3516 * x ^ 2
            + 0.2843 * x ^ 3 - 0.1015 * x ^ 4)
      ∧ (sq 0 = 0 → naca0012_y t sq 0 = 0)
      ∧ (sq 1 = 1 → 0 < t → naca0012_y t sq 1 ≠ 0) := by
  refine ⟨?_, ?_, ?_⟩
  · rw [naca0012_y_eq]
    unfold c0 c1 c2 c3 c4 scaleC
    ring
  · intro h0
    exact naca0012_y_at_zero t sq h0
  · intro h1 ht
    have hval : naca0012_y t sq 1 = 21 / 2000 * t := by
      rw [naca0012_y_eq, h1]
      unfold c0 c1 c2 c3 c4 scaleC
      ring
    rw [hval]
    have hpos : (0 : ℚ) < 21 / 2000 * t := by positivity
    exact ne_of_gt hpos

/-- Claim C5 witness. -/
theorem claim_C5_witness :
    naca0012_y (12/100) (fun q => q) 1
        = 5 * (12/100) * (0.2969 * 1 - 0.1260 * 1 - 0.3516 * 1 ^ 2
            + 0.2843 * 1 ^ 3 - 0.1015 * 1 ^ 4)
      ∧ naca0012_y (12/100) (fun q => q) 0 = 0
      ∧ naca0012_y (12/100) (fun q => q) 1 ≠ 0 := by
  have h := claim_C5_theorem (12/100) (fun q => q) 1
  exact ⟨h.1, h.2.1 rfl, h.2.2 rfl (by norm_num)⟩

/-- Claim C6: evaluating `naca0012_y` one scalar at a time agrees exactly,
element by element, with one batched evaluation over the whole abscissa
set: the final `out` buffer of the vectorised run is the map of the
scalar evaluator over the input. -/
theorem claim_C6_theorem (t : ℚ) (sq : ℚ → ℚ) (xs out scratch : List ℚ)
    (h : out.length = xs.length) :
    (naca0012_y_vec t sq ⟨xs, out, scratch⟩).out
      = xs.map (naca0012_y t sq) := by
  rw [naca0012_y_vec_spec _ _ _ _ _ h]

/-- Claim C6 witness. -/
theorem claim_C6_witness :
    (naca0012_y_vec (12/100) (fun q => q) ⟨[0, 1], [5, 7], [9, 11]⟩).out
      = [0, 1].map (naca0012_y (12/100) (fun q => q)) :=
  claim_C6_theorem (12/100) (fun q => q) [0, 1] [5, 7] [9, 11] (by decide)

/-- Claim C7: for every `N ≥ 2` the bulk-optimised assembler
`generate_airfoil_points` produces exactly the same point sequence,
element by element, as the per-point-append reference implementation
`generate_airfoil_points_slow`. -/
theorem claim_C7_theorem (t : ℚ) (sq : ℚ → ℚ) (N : ℕ) (hN : 2 ≤ N) :
    generate_airfoil_points t sq N = generate_airfoil_points_slow t sq N := by
  rw [generate_eq_canonical, slow_eq_canonical]

/-- Claim C7 witness. -/
theorem claim_C7_witness :
    generate_airfoil_points (12/100) (fun q => q) 3
      = generate_airfoil_points_slow (12/100) (fun q => q) 3 :=
  claim_C7_theorem (12/100) (fun q => q) 3 (by norm_num)

/-- Claim C2: for every `N ≥ 2` the sequence returned by
`generate_airfoil_points` contains exactly `2N - 1` boundary points (each
point being a 3-tuple by the type of the sequence). -/
theorem claim_C2_theorem (t : ℚ) (sq : ℚ → ℚ) (N : ℕ) (hN : 2 ≤ N) :
    (generate_airfoil_points t sq N).length = 2 * N - 1 := by
  rw [generate_eq_canonical, airfoilCanonical_length]

/-- Claim C2 witness. -/
theorem claim_C2_witness :
    (generate_airfoil_points (12/100) (fun q => q) 3).length = 2 * 3 - 1 :=
  claim_C2_theorem (12/100) (fun q => q) 3 (by norm_num)

/-- Claim C3: for every `N ≥ 2` and `1 ≤ i ≤ N - 1`, the upper-surface
point at index `N - 1 - i` and the lower-surface point at index
`N - 1 + i` carry the same abscissa, and their ordinates are exact
negations of each other. -/
theorem claim_C3_theorem (t : ℚ) (sq : ℚ → ℚ) (N i : ℕ)
    (hN : 2 ≤ N) (hi1 : 1 ≤ i) (hi2 : i ≤ N - 1) :
    ((generate_airfoil_points t sq N).getD (N - 1 - i) (0, 0, 0)).1
        = ((generate_airfoil_points t sq N).getD (N - 1 + i) (0, 0, 0)).1
      ∧ ((generate_airfoil_points t sq N).getD (N - 1 - i) (0, 0, 0)).2.1
        = -(((generate_airfoil_points t sq N).getD (N - 1 + i) (0, 0, 0)).2.1) := by
  rw [generate_eq_canonical]
  rw [airfoilCanonical_getD_upper _ _ _ _ (by omega),
    airfoilCanonical_getD_lower _ _ _ _ (by omega) (by omega)]
  have e1 : N - 1 - (N - 1 - i) = i := by omega
  have e2 : N - 1 + i - N + 1 = i := by omega
  rw [e1, e2]
  exact ⟨rfl, by rw [neg_neg]⟩

/-- Claim C3 witness. -/
theorem claim_C3_witness :
    ((generate_airfoil_points (12/100) (fun q => q) 3).getD 1 (0, 0, 0)).1
        = ((generate_airfoil_points (12/100) (fun q => q) 3).getD 3 (0, 0, 0)).1
      ∧ ((generate_airfoil_points (12/100) (fun q => q) 3).getD 1 (0, 0, 0)).2.1
        = -(((generate_airfoil_points (12/100) (fun q => q) 3).getD 3 (0, 0, 0)).2.1) :=
  claim_C3_theorem (12/100) (fun q => q) 3 1 (by norm_num) (by norm_num) (by norm_num)

/-- Claim C9: for every `N ≥ 2`, every point returned by
`generate_airfoil_points` has z-coordinate exactly `0`: the z column used
internally as a scratchpad is restored to zero before return. -/
theorem claim_C9_theorem (t : ℚ) (sq : ℚ → ℚ) (N : ℕ) (hN : 2 ≤ N) :
    ∀ p ∈ generate_airfoil_points t sq N, p.2.2 = 0 := by
  rw [generate_eq_canonical]
  intro p hp
  unfold airfoilCanonical at hp
  rcases List.mem_append.1 hp with h | h <;>
    · rcases List.mem_map.1 h with ⟨j, _, rfl⟩
      rfl

/-- Claim C9 witness. -/
theorem claim_C9_witness :
    ((generate_airfoil_points (12/100) (fun q => q) 2).getD 0 (0, 0, 0)).2.2 = 0 := by
  have hlen : 0 < (generate_airfoil_points (12/100) (fun q => q) 2).length := by
    rw [generate_eq_canonical, airfoilCanonical_length]
    norm_num
  have hmem : (generate_airfoil_points (12/100) (fun q => q) 2).getD 0 (0, 0, 0)
      ∈ generate_airfoil_points (12/100) (fun q => q) 2 := by
    rw [List.getD_eq_getElem _ _ hlen]
    exact List.getElem_mem hlen
  exact claim_C9_theorem (12/100) (fun q => q) 2 (by norm_num) _ hmem

/-- Claim C8: for every `N ≥ 2`, every abscissa produced by the abscissa
generator `linspace01` is non-negative, so the square-root oracle inside
`naca0012_y` never receives a negative input when `generate_airfoil_points`
evaluates the profile over `linspace01 N`. -/
theorem claim_C8_theorem (N : ℕ) (hN : 2 ≤ N) :
    ∀ v ∈ linspace01 N, 0 ≤ v := by
  intro v hv
  unfold linspace01 at hv
  rcases List.mem_map.1 hv with ⟨i, _, rfl⟩
  unfold xcoord
  apply div_nonneg
  · positivity
  · have h2 : (2 : ℚ) ≤ (N : ℚ) := by exact_mod_cast hN
    linarith

/-- Claim C8 witness. -/
theorem claim_C8_witness : (0 : ℚ) ≤ (linspace01 3).getD 1 0 := by
  have hlen : 1 < (linspace01 3).length := by rw [length_linspace01]; norm_num
  have hmem : (linspace01 3).getD 1 0 ∈ linspace01 3 := by
    rw [List.getD_eq_getElem _ _ hlen]
    exact List.getElem_mem hlen
  exact claim_C8_theorem 3 (by norm_num) _ hmem

/-- Claim C10: the vectorised `naca0012_y` run writes the evaluated
ordinates into the `out` buffer, overwrites the `scratch` buffer with the
scaled square-root term `5t * 0.2969 * sqrt x`, and leaves the input `x`
unchanged; when the buffers are omitted, the internal-allocation variant
returns the same ordinates and `x` is again untouched. -/
theorem claim_C10_theorem (t : ℚ) (sq : ℚ → ℚ) (xs out scratch : List ℚ)
    (h : out.length = xs.length) :
    naca0012_y_vec t sq ⟨xs, out, scratch⟩
        = ⟨xs, xs.map (naca0012_y t sq), xs.map (fun v => 5 * t * 0.2969 * sq v)⟩
      ∧ naca0012_y_alloc t sq xs = xs.map (naca0012_y t sq) := by
  constructor
  · rw [naca0012_y_vec_spec _ _ _ _ _ h]
    have hs : xs.map (fun v => sq v * c0 t)
        = xs.map (fun v => 5 * t * 0.2969 * sq v) := by
      apply List.map_congr_left
      intro v _
      unfold c0 scaleC
      ring
    rw [hs]
  · unfold naca0012_y_alloc
    rw [naca0012_y_vec_spec _ _ _ _ _ (by simp)]

/-- Claim C10 witness. -/
theorem claim_C10_witness :
    naca0012_y_vec (12/100) (fun q => q) ⟨[0, 1], [2, 3], [4]⟩
      = ⟨[0, 1], [0, 1].map (naca0012_y (12/100) (fun q => q)),
          [0, 1].map (fun v => 5 * (12/100) * 0.2969 * v)⟩ :=
  (claim_C10_theorem (12/100) (fun q => q) [0, 1] [2, 3] [4] (by decide)).1

/-- Claim C1 counterexample: `generate_airfoil_points` does not fail for
`N = 1`; it returns the 1-point sequence `[(0, 0, 0)]` (NumPy's
`linspace(0, 1, 1)` is `[0.0]`, so no division error occurs), and the CLI
validation accepts `num_points = 1` (it rejects only `num_points <= 0`). -/
theorem claim_C1_counterexample :
    generate_airfoil_points (12/100) (fun q => q) 1 = [((0 : ℚ), 0, 0)]
      ∧ main_accepts_num_points 1 = true := by
  constructor
  · rw [generate_eq_canonical]
    unfold airfoilCanonical
    simp [xcoord_zero, naca0012_y_at_zero (12/100) (fun q => q) rfl]
  · rfl

/-- Claim C1 (amended): `generate_airfoil_points` performs no `N < 2`
precondition check.  For `N = 1` it returns the single well-defined point
`(0, 0, 0)` (no NaN, no error), and the surrounding CLI rejects a sample
count `n` exactly when `n ≤ 0`, so `N = 1` passes validation. -/
theorem claim_C1_theorem (t : ℚ) (sq : ℚ → ℚ) (h0 : sq 0 = 0) :
    generate_airfoil_points t sq 1 = [((0 : ℚ), 0, 0)]
      ∧ ∀ n : ℤ, main_accepts_num_points n = true ↔ 0 < n := by
  constructor
  · rw [generate_eq_canonical]
    unfold airfoilCanonical
    simp [xcoord_zero, naca0012_y_at_zero t sq h0]
  · intro n
    simp only [main_accepts_num_points, Bool.not_eq_true', decide_eq_false_iff_not]
    omega

/-- Claim C1 witness (for the amended statement). -/
theorem claim_C1_witness :
    generate_airfoil_points (3/10) (fun q => q) 1 = [((0 : ℚ), 0, 0)]
      ∧ main_accepts_num_points 2 = true := by
  have h := claim_C1_theorem (3/10) (fun q => q) rfl
  exact ⟨h.1, (h.2 2).mpr (by norm_num)⟩

/-- Claim C4: for every `N ≥ 2` the leading-edge point (chord fraction
`x = 0`) appears exactly once in the output of
`generate_airfoil_points`, at index `N - 1`, and equals `(0, 0, 0)`; for
`N = 100` the output has `199` points with `output[0] = (1, y(1), 0)`,
`output[99] = (0, 0, 0)` and `output[198] = (1, -y(1), 0)`. -/
theorem claim_C4_theorem (t : ℚ) (sq : ℚ → ℚ) (h0 : sq 0 = 0) :
    (∀ N : ℕ, 2 ≤ N →
        ((generate_airfoil_points t sq N).countP (fun p => decide (p.1 = 0)) = 1
          ∧ (generate_airfoil_points t sq N).getD (N - 1) (0, 0, 0) = (0, 0, 0)))
      ∧ (generate_airfoil_points t sq 100).length = 199
      ∧ (generate_airfoil_points t sq 100).getD 0 (0, 0, 0)
          = (1, naca0012_y t sq 1, 0)
      ∧ (generate_airfoil_points t sq 100).getD 99 (0, 0, 0) = (0, 0, 0)
      ∧ (generate_airfoil_points t sq 100).getD 198 (0, 0, 0)
          = (1, -(naca0012_y t sq 1), 0) := by
  have h99 : xcoord 100 99 = 1 := by
    have h := xcoord_last 100 (by norm_num)
    norm_num at h
    exact h
  refine ⟨?_, ?_, ?_, ?_, ?_⟩
  · intro N hN
    constructor
    · rw [generate_eq_canonical]
      unfold airfoilCanonical
      rw [List.countP_append, List.countP_map, List.countP_map]
      have hcong : ∀ a ∈ List.range N,
          ((fun p : ℚ × ℚ × ℚ => decide (p.1 = 0)) ∘ fun j =>
            (xcoord N (N - 1 - j), naca0012_y t sq (xcoord N (N - 1 - j)), (0 : ℚ))) a
              = true
          ↔ (fun j => decide (j = N - 1)) a = true := by
        intro j hj
        rw [List.mem_range] at hj
        simp only [Function.comp_apply, decide_eq_true_eq]
        rw [xcoord_eq_zero_iff N _ hN]
        omega
      have e1 := (List.countP_congr hcong).trans (countP_range_eq_one N (N - 1) (by omega))
      have e2 : (List.range (N - 1)).countP
          ((fun p : ℚ × ℚ × ℚ => decide (p.1 = 0)) ∘ fun k =>
            (xcoord N (k + 1), -(naca0012_y t sq (xcoord N (k + 1))), (0 : ℚ))) = 0 := by
        rw [List.countP_eq_zero]
        intro k hk
        rw [List.mem_range] at hk
        simp only [Function.comp_apply, decide_eq_true_eq]
        rw [xcoord_eq_zero_iff N _ hN]
        omega
      rw [e1, e2]
    · rw [generate_eq_canonical,
        airfoilCanonical_getD_upper _ _ _ _ (by omega)]
      have hz : N - 1 - (N - 1) = 0 := by omega
      rw [hz, xcoord_zero, naca0012_y_at_zero t sq h0]
  · rw [generate_eq_canonical, airfoilCanonical_length]
  · rw [generate_eq_canonical,
      airfoilCanonical_getD_upper _ _ _ _ (by norm_num)]
    norm_num [h99]
  · rw [generate_eq_canonical,
      airfoilCanonical_getD_upper _ _ _ _ (by norm_num)]
    norm_num [xcoord_zero, naca0012_y_at_zero t sq h0]
  · rw [generate_eq_canonical,
      airfoilCanonical_getD_lower _ _ _ _ (by norm_num) (by norm_num)]
    norm_num [h99]

/-- Claim C4 witness. -/
theorem claim_C4_witness :
    (generate_airfoil_points (12/100) (fun q => q) 2).countP
        (fun p => decide (p.1 = 0)) = 1
      ∧ (generate_airfoil_points (12/100) (fun q => q) 100).getD 99 (0, 0, 0)
          = (0, 0, 0) := by
  have h := claim_C4_theorem (12/100) (fun q => q) rfl
  exact ⟨(h.1 2 (by norm_num)).1, h.2.2.2.1⟩

end Deepflow
